import Mathlib

/-!
Verification of the attendance core of the class-craft backend
(`src/controllers/attendanceController.js`, `src/models/Attendance.js`,
`src/models/Class.js`, `src/models/Student.js`).

The JavaScript handlers are shallowly embedded as pure Lean functions:
the MongoDB `Attendance` collection becomes an explicit `List AttendanceDoc`
threaded through `saveAttendance`, the `Class` and `Student` collections
become read-only lists, timestamps become `Int` milliseconds since the Unix
epoch, and the JavaScript `Date` UTC decomposition is modelled by a proleptic
Gregorian civil-calendar conversion (Neri-Schneider algorithm) proved to be a
right inverse of the rata-die function.
-/

namespace ClassCraft

/-! ## Calendar model (ECMAScript `Date` UTC decomposition)

`civilFromDays` models the triple
`(getUTCFullYear, getUTCMonth + 1, getUTCDate)` of a JS `Date` holding the
first millisecond of day number `z` (days since 1970-01-01 UTC, proleptic
Gregorian, no leap seconds — exactly the ECMAScript time model).
`daysFromCivil` is the inverse rata-die conversion used to model
`Date.UTC(y, m - 1, d, 0, 0, 0, 0)`. -/

/-- Civil date `(year, month 1..12, day 1..31)` of day number `z`
(days since 1970-01-01 UTC), via the Neri-Schneider Euclidean
affine-function algorithm. -/
def civilFromDays (z : Int) : Int × Int × Int :=
  let n := z + 719468
  let c := (4 * n + 3) / 146097
  let nc := (4 * n + 3) % 146097 / 4
  let y := (4 * nc + 3) / 1461
  let ny := (4 * nc + 3) % 1461 / 4
  let m := (5 * ny + 461) / 153
  let d := ny - (153 * m - 457) / 5 + 1
  if 12 < m then (100 * c + y + 1, m - 12, d) else (100 * c + y, m, d)

/-- Day number (days since 1970-01-01 UTC) of a civil date
(Neri-Schneider rata die; months `1..2` count into the previous
shifted year). -/
def daysFromCivil (y m d : Int) : Int :=
  let yy := if m ≤ 2 then y - 1 else y
  let mm := if m ≤ 2 then m + 12 else m
  let c := yy / 100
  let yc := yy % 100
  146097 * c / 4 + 1461 * yc / 4 + (153 * mm - 457) / 5 + d - 1 - 719468

theorem NS_split146097 (n : Int) :
    146097 * ((4 * n + 3) / 146097) / 4 + (4 * n + 3) % 146097 / 4 = n := by
  omega

theorem NS_split1461 (nc : Int) :
    1461 * ((4 * nc + 3) / 1461) / 4 + (4 * nc + 3) % 1461 / 4 = nc := by
  omega

/-- The rata-die conversion is a left inverse of the civil decomposition:
recombining the `(year, month, day)` components of a day number yields the
day number back. This certifies that the two calendar functions agree. -/
theorem daysFromCivil_civilFromDays (z : Int) :
    daysFromCivil (civilFromDays z).1 (civilFromDays z).2.1 (civilFromDays z).2.2 = z := by
  simp only [civilFromDays]
  set n := z + 719468 with hn
  set c := (4 * n + 3) / 146097 with hc
  set nc := (4 * n + 3) % 146097 / 4 with hnc
  set y := (4 * nc + 3) / 1461 with hy
  set ny := (4 * nc + 3) % 1461 / 4 with hny
  set m := (5 * ny + 461) / 153 with hm
  have h1 : 146097 * c / 4 + nc = n := by rw [hc, hnc]; exact NS_split146097 n
  have h2 : 1461 * y / 4 + ny = nc := by rw [hy, hny]; exact NS_split1461 nc
  have hncb : 0 ≤ nc ∧ nc ≤ 36524 := by rw [hnc]; omega
  have hyb : 0 ≤ y ∧ y ≤ 99 := by rw [hy]; omega
  have hnyb : 0 ≤ ny ∧ ny ≤ 365 := by rw [hny]; omega
  have hmb : 3 ≤ m ∧ m ≤ 14 := by rw [hm]; omega
  clear_value n c nc y ny m
  clear hc hnc hy hny hm
  by_cases hj : 12 < m
  · simp only [if_pos hj, daysFromCivil]
    have hle : m - 12 ≤ 2 := by omega
    simp only [if_pos hle]
    have q0 : 100 * c + y + 1 - 1 = 100 * c + y := by ring
    rw [q0]
    have q1 : (100 * c + y) / 100 = c := by omega
    have q2 : (100 * c + y) % 100 = y := by omega
    have q3 : m - 12 + 12 = m := by ring
    rw [q1, q2, q3]
    omega
  · simp only [if_neg hj, daysFromCivil]
    have hle : ¬ (m ≤ 2) := by omega
    simp only [if_neg hle]
    have q1 : (100 * c + y) / 100 = c := by omega
    have q2 : (100 * c + y) % 100 = y := by omega
    rw [q1, q2]
    omega

/-- Milliseconds per UTC day in the ECMAScript time model. -/
def msPerDay : Int := 86400000

/-- Day number of a timestamp: `Math.floor(t / msPerDay)`.
`Int` division is Euclidean, which agrees with floor for the positive
divisor `msPerDay`. -/
def dayNumber (t : Int) : Int := t / msPerDay

/-- The `(getUTCFullYear, getUTCMonth + 1, getUTCDate)` triple of
`new Date(t)`. -/
def utcYMD (t : Int) : Int × Int × Int := civilFromDays (dayNumber t)

/-- Models `Date.UTC(y, m - 1, d, 0, 0, 0, 0)` (month argument here is
1-based). ECMAScript maps a year argument in `0..99` to `1900 + y`
(the two-digit-year rule of `Date.UTC`). -/
def dateUTC (y m d : Int) : Int :=
  msPerDay * daysFromCivil (if 0 ≤ y ∧ y ≤ 99 then y + 1900 else y) m d

/-- Models the JavaScript expression `dateLike || Date.now()`: an absent
value, or the falsy number `0`, falls back to the current instant. -/
def jsOrNow (now : Int) (dateLike : Option Int) : Int :=
  match dateLike with
  | none => now
  | some v => if v = 0 then now else v

/-- The day normalizer of `attendanceController.js`:

`function startOfUTC(dateLike) { const d = new Date(dateLike || Date.now());
  return new Date(Date.UTC(d.getUTCFullYear(), d.getUTCMonth(),
  d.getUTCDate(), 0, 0, 0, 0)); }`

`dateLike` is modelled as an optional millisecond timestamp; `now` is the
value of `Date.now()`. -/
def startOfUTC (now : Int) (dateLike : Option Int) : Int :=
  dateUTC (utcYMD (jsOrNow now dateLike)).1
    (utcYMD (jsOrNow now dateLike)).2.1 (utcYMD (jsOrNow now dateLike)).2.2

/-- A nonzero explicit timestamp is taken as-is. -/
theorem jsOrNow_some (now t : Int) (ht : t ≠ 0) : jsOrNow now (some t) = t := by
  simp only [jsOrNow, if_neg ht]

/-- For a nonzero timestamp the normalizer only looks at the timestamp,
not the clock. -/
theorem startOfUTC_some (now t : Int) (ht : t ≠ 0) :
    startOfUTC now (some t) = dateUTC (utcYMD t).1 (utcYMD t).2.1 (utcYMD t).2.2 := by
  simp only [startOfUTC, jsOrNow_some now t ht]

/-- Outside the two-digit-year range, normalization truncates a timestamp
to the first millisecond of its UTC day. -/
theorem startOfUTC_eq_floorDay (now t : Int) (ht : t ≠ 0)
    (hy : ¬ (0 ≤ (utcYMD t).1 ∧ (utcYMD t).1 ≤ 99)) :
    startOfUTC now (some t) = msPerDay * dayNumber t := by
  rw [startOfUTC_some now t ht]
  simp only [utcYMD] at hy ⊢
  rw [dateUTC, if_neg hy, daysFromCivil_civilFromDays]

/-! ## Data model

Documents of the three MongoDB collections the attendance controller
touches, with ids modelled as strings (`String(...)` coercion in the JS
code compares them as strings). A missing / `undefined` string field is
modelled as `""`, which is exactly the set of falsy `String` values in
JavaScript. -/

/-- One element of `Attendance.records`
(`{ studentId, studentName, enrollNo, status }`). -/
structure Mark where
  studentId : String
  studentName : String
  enrollNo : String
  status : String
deriving DecidableEq

/-- A document of the `Attendance` collection (`models/Attendance.js`):
`className`, `date` (original timestamp field), `dateOnlyUTC`
(normalized UTC day) and the `records` array. -/
structure AttendanceDoc where
  className : String
  date : Int
  dateOnlyUTC : Int
  records : List Mark
deriving DecidableEq

/-- A document of the `Student` collection (`models/Student.js`),
restricted to the fields the attendance controller selects
(`_id classId name enrollNo`). -/
structure StudentDoc where
  sid : String
  name : String
  enrollNo : String
  classId : String
deriving DecidableEq

/-- A document of the `Class` collection (`models/Class.js`), restricted
to the fields the attendance controller selects (`_id`, `teacher`,
`name`). -/
structure ClassDoc where
  cid : String
  name : String
  teacher : String
deriving DecidableEq

/-- The authenticated caller identity set by `authMiddleware`
(`req.user = { id, role }`); `none` models an absent `req.user`. -/
structure AuthUser where
  id : String
  role : String
deriving DecidableEq

/-- An HTTP error response (`status`, `message`). -/
structure HttpError where
  status : Nat
  message : String
deriving DecidableEq

/-! ## Schema indexes (`models/Attendance.js`)

The schema declares a single-field index on `dateOnlyUTC`
(`dateOnlyUTC: { type: Date, index: true }`) and one compound index
(`attendanceSchema.index({ className: 1, dateOnlyUTC: -1 })`). Neither
declaration passes a `unique` option, so both default to non-unique. -/

/-- A MongoDB index specification: the indexed keys with their sort
directions, and whether the index carries a uniqueness constraint. -/
structure IndexSpec where
  keys : List (String × Int)
  unique : Bool
deriving DecidableEq

/-- The indexes declared by `attendanceSchema` in `models/Attendance.js`. -/
def attendanceSchemaIndexes : List IndexSpec :=
  [⟨[("dateOnlyUTC", 1)], false⟩,
   ⟨[("className", 1), ("dateOnlyUTC", -1)], false⟩]

/-! ## Access guard -/

/-- Models `Class.findOne({ name: className })`: the first document in
natural order whose `name` matches. -/
def findClassByName (classes : List ClassDoc) (className : String) : Option ClassDoc :=
  classes.find? (fun c => c.name = className)

/-- `ensureAccessToClassByName` from `attendanceController.js`: 404 when
no class of that name exists; 403 when the caller is present, has role
`"teacher"` and is not the class's teacher; otherwise the class. -/
def ensureAccessToClassByName (classes : List ClassDoc) (className : String)
    (user : Option AuthUser) : Except HttpError ClassDoc :=
  match findClassByName classes className with
  | none => .error ⟨404, "Class not found"⟩
  | some cls =>
    match user with
    | some u =>
      if u.role = "teacher" ∧ cls.teacher ≠ u.id then
        .error ⟨403, "Forbidden: not owner of this class"⟩
      else
        .ok cls
    | none => .ok cls

/-- `ensureAccessToClassById` from `attendanceController.js`: identical
logic with the class resolved by `Class.findById(classId)`. -/
def ensureAccessToClassById (classes : List ClassDoc) (classId : String)
    (user : Option AuthUser) : Except HttpError ClassDoc :=
  match classes.find? (fun c => c.cid = classId) with
  | none => .error ⟨404, "Class not found"⟩
  | some cls =>
    match user with
    | some u =>
      if u.role = "teacher" ∧ cls.teacher ≠ u.id then
        .error ⟨403, "Forbidden: not owner of this class"⟩
      else
        .ok cls
    | none => .ok cls

/-! ## Attendance writer (`POST /api/attendance/save`) -/

/-- Models `mongoose.Types.ObjectId.isValid`: a 24-character hex string,
or any 12-character string (a 12-byte buffer-like value). -/
def isValidObjectId (s : String) : Bool :=
  (s.length == 24 &&
    s.toList.all fun c =>
      c.isDigit || ('a' ≤ c && c ≤ 'f') || ('A' ≤ c && c ≤ 'F')) ||
  s.length == 12

/-- First validation loop of `saveAttendance`: each record must carry a
truthy `studentId` and `status`, and `studentId` must be a valid
ObjectId. Returns the message of the first 400 response hit, if any. -/
def checkRecordsShape : List Mark → Option String
  | [] => none
  | r :: rs =>
    if r.studentId = "" ∨ r.status = "" then
      some "Each record must contain studentId and status"
    else if ¬ isValidObjectId r.studentId then
      some ("Invalid studentId: " ++ r.studentId)
    else
      checkRecordsShape rs

/-- Second validation loop of `saveAttendance`: every record's student
must exist (`Student.find({_id: {$in: ...}})` lookup) and belong to the
class resolved by name (`String(s.classId) !== String(cls._id)`).
Returns the message of the first 400 response hit, if any. -/
def checkRecordsMembership (students : List StudentDoc) (classes : List ClassDoc)
    (className : String) : List Mark → Option String
  | [] => none
  | r :: rs =>
    match students.find? (fun s => s.sid = r.studentId) with
    | none => some ("Student not found: " ++ r.studentId)
    | some s =>
      match findClassByName classes className with
      | none =>
        some ("Student " ++ r.studentId ++ " does not belong to class " ++ className)
      | some cls =>
        if s.classId ≠ cls.cid then
          some ("Student " ++ r.studentId ++ " does not belong to class " ++ className)
        else
          checkRecordsMembership students classes className rs

/-- Models `Attendance.findOneAndUpdate({className, dateOnlyUTC}, {$set:
...}, {upsert: true})`: the `$set` payload covers every schema field, so
the first document matching the filter is replaced wholesale; when none
matches, the new document is inserted (at the end, in natural order). -/
def upsertByKey : List AttendanceDoc → AttendanceDoc → List AttendanceDoc
  | [], nd => [nd]
  | a :: as_, nd =>
    if a.className = nd.className ∧ a.dateOnlyUTC = nd.dateOnlyUTC then
      nd :: as_
    else
      a :: upsertByKey as_ nd

/-- The request body of `POST /api/attendance/save`
(`{ className, date?, records }`); `none` models an absent field
(for `records`, also a non-array value, which fails the same
`Array.isArray` test). -/
structure SaveReq where
  className : Option String
  date : Option Int
  records : Option (List Mark)
deriving DecidableEq

/-- Outcome of `saveAttendance`: the 200 response carrying the upserted
document, or an error response. -/
inductive SaveOutcome where
  | ok (attendance : AttendanceDoc) : SaveOutcome
  | err (status : Nat) (message : String) : SaveOutcome
deriving DecidableEq

/-- Whether a save outcome is the 200 response. -/
def SaveOutcome.isOk : SaveOutcome → Bool
  | .ok _ => true
  | .err _ _ => false

/-- `saveAttendance` from `attendanceController.js`, as a function of the
read-only `Class` and `Student` collections, the `Attendance` collection
(threaded state), the current clock, the caller, and the request body.
Returns the new `Attendance` collection and the HTTP outcome. -/
def saveAttendance (classes : List ClassDoc) (students : List StudentDoc)
    (store : List AttendanceDoc) (now : Int) (user : Option AuthUser)
    (req : SaveReq) : List AttendanceDoc × SaveOutcome :=
  match req.className, req.records with
  | none, _ =>
    (store, .err 400 "Missing required fields: className and records (array)")
  | some _, none =>
    (store, .err 400 "Missing required fields: className and records (array)")
  | some cn, some records =>
    match ensureAccessToClassByName classes cn user with
    | .error e => (store, .err e.status e.message)
    | .ok _ =>
      match checkRecordsShape records with
      | some msg => (store, .err 400 msg)
      | none =>
        let dayStartUTC := startOfUTC now req.date
        match checkRecordsMembership students classes cn records with
        | some msg => (store, .err 400 msg)
        | none =>
          let nd : AttendanceDoc :=
            { className := cn, date := dayStartUTC, dateOnlyUTC := dayStartUTC,
              records := records }
          (upsertByKey store nd, .ok nd)

/-! ## Attendance reader (`GET /api/attendance/history`) -/

/-- One row of the history response's `records` array
(`{ id, studentId, name, enrollNo, status }`). -/
structure RecOut where
  id : Nat
  studentId : String
  name : String
  enrollNo : String
  status : String
deriving DecidableEq

/-- The 200 response of `getAttendanceHistory`. On the empty-session path
the controller echoes the query's `date` (or `null`); on the found path
it returns the session's stored `date` field. -/
structure HistResp where
  className : String
  date : Option Int
  total : Nat
  present : Nat
  absent : Nat
  records : List RecOut
deriving DecidableEq

/-- Outcome of `getAttendanceHistory`. -/
inductive HistOutcome where
  | ok (resp : HistResp) : HistOutcome
  | err (status : Nat) (message : String) : HistOutcome
deriving DecidableEq

/-- Models `Attendance.findOne({className}).sort({dateOnlyUTC: -1})`:
a document with maximal `dateOnlyUTC` among those matching `className`
(the first such document in natural order, matching a stable sort). -/
def latestSession (store : List AttendanceDoc) (className : String) : Option AttendanceDoc :=
  (store.filter (fun a => a.className = className)).foldl
    (fun best a =>
      match best with
      | none => some a
      | some b => if b.dateOnlyUTC < a.dateOnlyUTC then some a else some b)
    none

/-- The session resolved by `getAttendanceHistory`: exact lookup by
normalized day when a `date` is supplied, otherwise the latest session
for the class. -/
def sessionLookup (store : List AttendanceDoc) (now : Int) (className : String) :
    Option Int → Option AttendanceDoc
  | some d =>
    store.find? (fun a => a.className = className ∧ a.dateOnlyUTC = startOfUTC now (some d))
  | none => latestSession store className

/-- `getAttendanceHistory` from `attendanceController.js`. -/
def getAttendanceHistory (classes : List ClassDoc) (store : List AttendanceDoc)
    (now : Int) (user : Option AuthUser) (className : Option String)
    (date : Option Int) : HistOutcome :=
  match className with
  | none => .err 400 "className query param is required"
  | some cn =>
    match ensureAccessToClassByName classes cn user with
    | .error e => .err e.status e.message
    | .ok _ =>
      match sessionLookup store now cn date with
      | none =>
        .ok { className := cn, date := date, total := 0, present := 0, absent := 0,
              records := [] }
      | some s =>
        let recs := s.records.enum.map fun p =>
          ({ id := p.1 + 1, studentId := p.2.studentId, name := p.2.studentName,
             enrollNo := p.2.enrollNo, status := p.2.status } : RecOut)
        .ok { className := s.className, date := some s.date,
              total := recs.length,
              present := (recs.filter (fun r => r.status = "Present")).length,
              absent := (recs.filter (fun r => r.status = "Absent")).length,
              records := recs }

/-! ## Monthly aggregator (`GET /api/attendance/monthly`) -/

/-- Gregorian leap-year test. -/
def isLeapYear (y : Int) : Bool :=
  (y % 4 == 0 && y % 100 != 0) || y % 400 == 0

/-- Models `new Date(y, m, 0).getDate()` for `m ∈ 1..12`: the number of
days in month `m` of year `y` (the local-time constructor round-trips the
civil components, so only the month length remains). ECMAScript maps a
year in `0..99` to `1900 + y`. -/
def daysInMonthJS (y m : Int) : Int :=
  let yy := if 0 ≤ y ∧ y ≤ 99 then y + 1900 else y
  if m = 2 then (if isLeapYear yy then 29 else 28)
  else if m = 4 ∨ m = 6 ∨ m = 9 ∨ m = 11 then 30
  else 31

/-- Day-of-month component of a session's normalized day:
`new Date(session.dateOnlyUTC).getUTCDate()`. -/
def sessionDayOfMonth (a : AttendanceDoc) : Int :=
  (utcYMD a.dateOnlyUTC).2.2

/-- The `(studentId, day, status)` assignments performed while folding the
month's sessions into `perStudentDayStatus`, in execution order. -/
def statusTriples (sessions : List AttendanceDoc) : List (String × Int × String) :=
  sessions.flatMap fun s => s.records.map fun r => (r.studentId, sessionDayOfMonth s, r.status)

/-- The value of `perStudentDayStatus.get(sid)[d]` after the fold: the
status of the last assignment for that student and day, if any. -/
def lastStatus (ts : List (String × Int × String)) (sid : String) (d : Int) :
    Option String :=
  ((ts.filter fun t => t.1 = sid ∧ t.2.1 = d).map fun t => t.2.2).getLast?

/-- Models `dayMap[d] || "NA"`: an absent entry, or a falsy (empty)
status string, renders as `"NA"`. -/
def cellOf : Option String → String
  | some st => if st = "" then "NA" else st
  | none => "NA"

/-- One row of the monthly matrix
(`{ studentId, name, enrollNo, daily, present, absent }`). -/
structure MonthlyRow where
  studentId : String
  name : String
  enrollNo : String
  daily : List String
  present : Nat
  absent : Nat
deriving DecidableEq

/-- The 200 response of `getMonthlyAttendance`. -/
structure MonthlyResp where
  className : String
  year : Int
  month : Int
  days : List Int
  students : List MonthlyRow
deriving DecidableEq

/-- Outcome of `getMonthlyAttendance`. -/
inductive MonthlyOutcome where
  | ok (resp : MonthlyResp) : MonthlyOutcome
  | err (status : Nat) (message : String) : MonthlyOutcome
deriving DecidableEq

/-- The matrix rows of a monthly outcome (empty on an error response). -/
def MonthlyOutcome.rows : MonthlyOutcome → List MonthlyRow
  | .ok r => r.students
  | .err _ _ => []

/-- The roster used by the aggregator: `Student.find({classId:
cls._id}).sort({name: 1})`, i.e. the class's students sorted by name
(stable sort, modelled by insertion sort; the name order is the
lexicographic order on the name's character sequence, which is exactly
`String.le`). -/
def sortedRoster (students : List StudentDoc) (cls : ClassDoc) : List StudentDoc :=
  List.insertionSort (fun a b => a.name.toList ≤ b.name.toList)
    (students.filter fun s => s.classId = cls.cid)

/-- The matrix row computed for one roster student. -/
def rowFor (ts : List (String × Int × String)) (days : List Int)
    (stu : StudentDoc) : MonthlyRow :=
  let daily := days.map fun d => cellOf (lastStatus ts stu.sid d)
  { studentId := stu.sid, name := stu.name, enrollNo := stu.enrollNo,
    daily := daily,
    present := (daily.filter fun s => s = "Present").length,
    absent := (daily.filter fun s => s = "Absent").length }

/-- The `days` column list `[1, ..., daysInMonth]` of the matrix. -/
def monthDays (y m : Int) : List Int :=
  List.map (fun i : Nat => (i : Int) + 1) (List.range (daysInMonthJS y m).toNat)

/-- The month's sessions: `Attendance.find({className, dateOnlyUTC:
{$gte: startUTC, $lt: endUTC}})` over the half-open range
`[Date.UTC(y, m-1, 1), Date.UTC(y, m, 1))`. -/
def monthSessions (store : List AttendanceDoc) (className : String) (y m : Int) :
    List AttendanceDoc :=
  store.filter fun a =>
    a.className = className ∧ dateUTC y m 1 ≤ a.dateOnlyUTC ∧ a.dateOnlyUTC < dateUTC y (m + 1) 1

/-- `getMonthlyAttendance` from `attendanceController.js`. `year` and
`month` are the parsed integer query parameters (`none` models a missing
parameter; an unparsable one fails the same `isNaN` 400 path). -/
def getMonthlyAttendance (classes : List ClassDoc) (students : List StudentDoc)
    (store : List AttendanceDoc) (user : Option AuthUser)
    (className : Option String) (year month : Option Int) : MonthlyOutcome :=
  match className, year, month with
  | none, _, _ => .err 400 "className, year, and month are required"
  | some _, none, _ => .err 400 "className, year, and month are required"
  | some _, some _, none => .err 400 "className, year, and month are required"
  | some cn, some y, some m =>
    match ensureAccessToClassByName classes cn user with
    | .error e => .err e.status e.message
    | .ok _ =>
      if m < 1 ∨ 12 < m then .err 400 "Invalid year/month"
      else
        match findClassByName classes cn with
        | none => .err 404 "Class not found"
        | some cls =>
          .ok { className := cn, year := y, month := m, days := monthDays y m,
                students := (sortedRoster students cls).map
                  (rowFor (statusTriples (monthSessions store cn y m)) (monthDays y m)) }

/-! ## Store invariant: at most one session per `(className, dateOnlyUTC)` -/

/-- No two documents of the store share the `(className, dateOnlyUTC)`
key. -/
def AtMostOnePerKey (store : List AttendanceDoc) : Prop :=
  store.Pairwise fun a b => ¬ (a.className = b.className ∧ a.dateOnlyUTC = b.dateOnlyUTC)

/-- Every member of an upsert result is the new document or an old one. -/
theorem mem_upsertByKey {store : List AttendanceDoc} {nd x : AttendanceDoc}
    (hx : x ∈ upsertByKey store nd) : x = nd ∨ x ∈ store := by
  induction store with
  | nil => simp only [upsertByKey, List.mem_singleton] at hx; exact Or.inl hx
  | cons a as_ ih =>
    simp only [upsertByKey] at hx
    by_cases hk : a.className = nd.className ∧ a.dateOnlyUTC = nd.dateOnlyUTC
    · rw [if_pos hk] at hx
      rcases List.mem_cons.mp hx with h | h
      · exact Or.inl h
      · exact Or.inr (List.mem_cons_of_mem a h)
    · rw [if_neg hk] at hx
      rcases List.mem_cons.mp hx with h | h
      · exact Or.inr (h ▸ List.mem_cons_self a as_)
      · rcases ih h with h' | h'
        · exact Or.inl h'
        · exact Or.inr (List.mem_cons_of_mem a h')

/-- Upserting preserves key uniqueness. -/
theorem atMostOnePerKey_upsertByKey {store : List AttendanceDoc} (nd : AttendanceDoc)
    (h : AtMostOnePerKey store) : AtMostOnePerKey (upsertByKey store nd) := by
  induction store with
  | nil => simp [upsertByKey, AtMostOnePerKey]
  | cons a as_ ih =>
    rcases List.pairwise_cons.mp h with ⟨ha, has⟩
    simp only [upsertByKey]
    by_cases hk : a.className = nd.className ∧ a.dateOnlyUTC = nd.dateOnlyUTC
    · rw [if_pos hk]
      refine List.pairwise_cons.mpr ⟨fun b hb hcon => ?_, has⟩
      exact ha b hb ⟨hk.1.trans hcon.1, hk.2.trans hcon.2⟩
    · rw [if_neg hk]
      refine List.pairwise_cons.mpr ⟨fun b hb => ?_, ih has⟩
      rcases mem_upsertByKey hb with rfl | hb'
      · exact hk
      · exact ha b hb'

/-- The key-match predicate used by the upsert filter. -/
def keyMatches (className : String) (day : Int) (a : AttendanceDoc) : Bool :=
  decide (a.className = className ∧ a.dateOnlyUTC = day)

/-- After an upsert into a key-unique store, the documents with the new
document's key are exactly the new document. -/
theorem filter_upsertByKey {store : List AttendanceDoc} {nd : AttendanceDoc}
    (h : AtMostOnePerKey store) :
    (upsertByKey store nd).filter (keyMatches nd.className nd.dateOnlyUTC) = [nd] := by
  induction store with
  | nil => simp [upsertByKey, keyMatches]
  | cons a as_ ih =>
    rcases List.pairwise_cons.mp h with ⟨ha, has⟩
    simp only [upsertByKey]
    by_cases hk : a.className = nd.className ∧ a.dateOnlyUTC = nd.dateOnlyUTC
    · rw [if_pos hk]
      have hnil : as_.filter (keyMatches nd.className nd.dateOnlyUTC) = [] := by
        refine List.filter_eq_nil_iff.mpr fun b hb hcon => ?_
        rcases of_decide_eq_true hcon with ⟨h1, h2⟩
        exact ha b hb ⟨hk.1.trans h1.symm, hk.2.trans h2.symm⟩
      simp [List.filter_cons, keyMatches, hnil]
    · rw [if_neg hk]
      have hfa : keyMatches nd.className nd.dateOnlyUTC a = false := by
        simpa [keyMatches] using hk
      simp [List.filter_cons, hfa, ih has]

/-- Upserting a document that is already the unique key-holder leaves the
store unchanged. -/
theorem upsertByKey_self {store : List AttendanceDoc} {nd : AttendanceDoc}
    (hf : store.filter (keyMatches nd.className nd.dateOnlyUTC) = [nd]) :
    upsertByKey store nd = store := by
  induction store with
  | nil => simp at hf
  | cons a as_ ih =>
    simp only [upsertByKey]
    by_cases hk : a.className = nd.className ∧ a.dateOnlyUTC = nd.dateOnlyUTC
    · rw [if_pos hk]
      have hfa : keyMatches nd.className nd.dateOnlyUTC a = true := by
        simpa [keyMatches] using hk
      rw [List.filter_cons, if_pos (by simpa using hfa)] at hf
      have : a = nd := (List.cons_eq_cons.mp hf).1
      rw [this]
    · rw [if_neg hk]
      have hfa : keyMatches nd.className nd.dateOnlyUTC a = false := by
        simpa [keyMatches] using hk
      rw [List.filter_cons, if_neg (by simp [hfa])] at hf
      rw [ih hf]

/-! ## Characterization of `saveAttendance` outcomes -/

/-- The document written by a successful save. -/
def savedDoc (className : String) (day : Int) (records : List Mark) : AttendanceDoc :=
  { className := className, date := day, dateOnlyUTC := day, records := records }

/-- When all three validation stages succeed, `saveAttendance` performs
exactly the keyed upsert of the new document and reports it with a 200. -/
theorem saveAttendance_of_valid (classes : List ClassDoc) (students : List StudentDoc)
    (store : List AttendanceDoc) (now : Int) (user : Option AuthUser)
    (cn : String) (d : Option Int) (M : List Mark) (cls : ClassDoc)
    (hacc : ensureAccessToClassByName classes cn user = .ok cls)
    (hshape : checkRecordsShape M = none)
    (hmem : checkRecordsMembership students classes cn M = none) :
    saveAttendance classes students store now user ⟨some cn, d, some M⟩ =
      (upsertByKey store (savedDoc cn (startOfUTC now d) M),
       .ok (savedDoc cn (startOfUTC now d) M)) := by
  simp only [saveAttendance, hacc, hshape, hmem, savedDoc]

/-- A successful save implies all three validation stages succeeded. -/
theorem saveAttendance_ok_conditions (classes : List ClassDoc) (students : List StudentDoc)
    (store : List AttendanceDoc) (now : Int) (user : Option AuthUser)
    (cn : String) (d : Option Int) (M : List Mark)
    (h : (saveAttendance classes students store now user ⟨some cn, d, some M⟩).2.isOk = true) :
    (∃ cls, ensureAccessToClassByName classes cn user = .ok cls) ∧
      checkRecordsShape M = none ∧
      checkRecordsMembership students classes cn M = none := by
  simp only [saveAttendance] at h
  cases hacc : ensureAccessToClassByName classes cn user with
  | error e => simp [hacc, SaveOutcome.isOk] at h
  | ok cls =>
    simp only [hacc] at h
    cases hshape : checkRecordsShape M with
    | some msg => simp [hshape, SaveOutcome.isOk] at h
    | none =>
      simp only [hshape] at h
      cases hmem : checkRecordsMembership students classes cn M with
      | some msg => simp [hmem, SaveOutcome.isOk] at h
      | none => exact ⟨⟨cls, rfl⟩, rfl, rfl⟩

/-- Any non-200 outcome of `saveAttendance` leaves the store untouched. -/
theorem saveAttendance_err_store (classes : List ClassDoc) (students : List StudentDoc)
    (store : List AttendanceDoc) (now : Int) (user : Option AuthUser) (req : SaveReq)
    (h : (saveAttendance classes students store now user req).2.isOk = false) :
    (saveAttendance classes students store now user req).1 = store := by
  obtain ⟨ocn, od, orec⟩ := req
  cases ocn with
  | none => simp [saveAttendance]
  | some cn =>
    cases orec with
    | none => simp [saveAttendance]
    | some M =>
      simp only [saveAttendance] at h ⊢
      cases hacc : ensureAccessToClassByName classes cn user with
      | error e => simp [hacc]
      | ok cls =>
        simp only [hacc] at h ⊢
        cases hshape : checkRecordsShape M with
        | some msg => simp [hshape]
        | none =>
          simp only [hshape] at h ⊢
          cases hmem : checkRecordsMembership students classes cn M with
          | some msg => simp [hmem]
          | none => simp [hmem, SaveOutcome.isOk] at h

/-! ## Concrete scenario data (used by witnesses and counterexamples) -/

/-- A concrete class, named "8A", owned by teacher "t1". -/
def cCls : ClassDoc := ⟨"c1", "8A", "t1"⟩

/-- A concrete student of class "8A". -/
def cStu1 : StudentDoc := ⟨"aaaaaaaaaaaaaaaaaaaaaaaa", "Asha", "E1", "c1"⟩

/-- A second concrete student of class "8A". -/
def cStu2 : StudentDoc := ⟨"bbbbbbbbbbbbbbbbbbbbbbbb", "Bela", "E2", "c1"⟩

/-- A third concrete student of class "8A". -/
def cStu3 : StudentDoc := ⟨"cccccccccccccccccccccccc", "Caro", "E3", "c1"⟩

/-- A "Present" mark for the first student. -/
def cMark1 : Mark := ⟨"aaaaaaaaaaaaaaaaaaaaaaaa", "Asha", "E1", "Present"⟩

/-- An "Absent" mark for the second student. -/
def cMark2 : Mark := ⟨"bbbbbbbbbbbbbbbbbbbbbbbb", "Bela", "E2", "Absent"⟩

/-- The first millisecond of 2025-11-10 UTC. -/
def day20251110 : Int := msPerDay * daysFromCivil 2025 11 10

/-! ## C10 — access-guard semantics -/

/-- C10: the access check only restricts callers whose role is exactly
"teacher": an absent caller or any non-"teacher" role is granted access to
every existing class; a "teacher" caller is denied with 403 exactly when
the class's `teacher` field differs from the caller's id; and an unknown
class yields 404 for every caller — for both the by-name and the by-id
guard. -/
theorem access_guard_semantics :
    (∀ classes cn user, findClassByName classes cn = none →
        ensureAccessToClassByName classes cn user = .error ⟨404, "Class not found"⟩)
    ∧ (∀ classes cn cls, findClassByName classes cn = some cls →
        ensureAccessToClassByName classes cn none = .ok cls)
    ∧ (∀ classes cn cls u, findClassByName classes cn = some cls → u.role ≠ "teacher" →
        ensureAccessToClassByName classes cn (some u) = .ok cls)
    ∧ (∀ classes cn cls u, findClassByName classes cn = some cls → u.role = "teacher" →
        (ensureAccessToClassByName classes cn (some u) =
            .error ⟨403, "Forbidden: not owner of this class"⟩ ↔ cls.teacher ≠ u.id))
    ∧ (∀ classes cid user, classes.find? (fun c => c.cid = cid) = none →
        ensureAccessToClassById classes cid user = .error ⟨404, "Class not found"⟩)
    ∧ (∀ classes cid cls u, classes.find? (fun c => c.cid = cid) = some cls →
        u.role = "teacher" →
        (ensureAccessToClassById classes cid (some u) =
            .error ⟨403, "Forbidden: not owner of this class"⟩ ↔ cls.teacher ≠ u.id)) := by
  refine ⟨?_, ?_, ?_, ?_, ?_, ?_⟩
  · intro classes cn user hf
    simp [ensureAccessToClassByName, hf]
  · intro classes cn cls hf
    simp [ensureAccessToClassByName, hf]
  · intro classes cn cls u hf hrole
    simp only [ensureAccessToClassByName, hf]
    rw [if_neg (fun hc => hrole hc.1)]
  · intro classes cn cls u hf hrole
    by_cases hid : cls.teacher = u.id
    · rw [iff_false_right (fun h => h hid)]
      simp only [ensureAccessToClassByName, hf]
      rw [if_neg (fun hc => hc.2 hid)]
      simp
    · rw [iff_true_right hid]
      simp only [ensureAccessToClassByName, hf]
      rw [if_pos ⟨hrole, hid⟩]
  · intro classes cid user hf
    simp [ensureAccessToClassById, hf]
  · intro classes cid cls u hf hrole
    by_cases hid : cls.teacher = u.id
    · rw [iff_false_right (fun h => h hid)]
      simp only [ensureAccessToClassById, hf]
      rw [if_neg (fun hc => hc.2 hid)]
      simp
    · rw [iff_true_right hid]
      simp only [ensureAccessToClassById, hf]
      rw [if_pos ⟨hrole, hid⟩]

/-- C10 witness: concrete instances — a student-role caller is granted
access to class "8A", a foreign teacher is denied, and an unknown class
name yields 404. -/
theorem access_guard_semantics_example :
    ensureAccessToClassByName [cCls] "8A" (some ⟨"x", "student"⟩) = .ok cCls
    ∧ ensureAccessToClassByName [cCls] "8A" (some ⟨"t2", "teacher"⟩) =
        .error ⟨403, "Forbidden: not owner of this class"⟩
    ∧ ensureAccessToClassByName [cCls] "9B" none = .error ⟨404, "Class not found"⟩ := by
  refine ⟨?_, ?_, ?_⟩
  · exact access_guard_semantics.2.2.1 [cCls] "8A" cCls ⟨"x", "student"⟩ (by decide)
      (by decide)
  · exact (access_guard_semantics.2.2.2.1 [cCls] "8A" cCls ⟨"t2", "teacher"⟩ (by decide)
      rfl).mpr (by decide)
  · exact access_guard_semantics.1 [cCls] "9B" none (by decide)

/-! ## C5 — day normalization -/

/-- C5 counterexample: the timestamps `0` and `1` fall on the same UTC
calendar date (1970-01-01), yet when the clock reads the first
millisecond of 1970-01-02 the normalizer maps them to different canonical
days, because `dateLike || Date.now()` treats the falsy timestamp `0` as
absent. -/
theorem startOfUTC_zero_falsy_counterexample :
    utcYMD 0 = utcYMD 1 ∧
      startOfUTC 86400000 (some 0) ≠ startOfUTC 86400000 (some 1) := by
  decide

/-- C5 (amended): for nonzero timestamps on the same UTC calendar date the
normalizer yields the identical canonical day — independent of the clock —
and (outside the two-digit-year range of `Date.UTC`) that day is the input's
UTC calendar day truncated to 00:00:00.000 UTC; an absent input behaves
like passing the current instant; the normalizer is a total function. -/
theorem startOfUTC_same_utc_day (now now' t1 t2 : Int) (h1 : t1 ≠ 0) (h2 : t2 ≠ 0)
    (hsame : utcYMD t1 = utcYMD t2) :
    startOfUTC now (some t1) = startOfUTC now' (some t2)
    ∧ dayNumber t1 = dayNumber t2
    ∧ (¬ (0 ≤ (utcYMD t1).1 ∧ (utcYMD t1).1 ≤ 99) →
        startOfUTC now (some t1) = msPerDay * dayNumber t1)
    ∧ startOfUTC now none = startOfUTC now (some now) := by
  refine ⟨?_, ?_, ?_, ?_⟩
  · rw [startOfUTC_some now t1 h1, startOfUTC_some now' t2 h2, hsame]
  · have r1 := daysFromCivil_civilFromDays (dayNumber t1)
    have r2 := daysFromCivil_civilFromDays (dayNumber t2)
    have hu : civilFromDays (dayNumber t1) = civilFromDays (dayNumber t2) := hsame
    rw [← r1, ← r2, hu]
  · exact startOfUTC_eq_floorDay now t1 h1
  · simp [startOfUTC, jsOrNow, ite_self]

/-- C5 witness: two timestamps inside 2025-11-10 UTC normalize to the
same canonical day under different clock values, namely the first
millisecond of that day. -/
theorem startOfUTC_same_utc_day_example :
    startOfUTC 0 (some (day20251110 + 1)) = startOfUTC 5 (some (day20251110 + 7200000))
    ∧ startOfUTC 0 (some (day20251110 + 1)) = msPerDay * 20402 := by
  have h := startOfUTC_same_utc_day 0 5 (day20251110 + 1) (day20251110 + 7200000)
    (by decide) (by decide) (by decide)
  refine ⟨h.1, ?_⟩
  have h3 := h.2.2.1 (by decide)
  rw [h3]
  decide

/-! ## C1 — one session per `(classIdentifier, day)` -/

/-- C1 counterexample: no index declared by the Attendance schema carries
a uniqueness constraint — in particular there is no unique index on
`(className, dateOnlyUTC)`; the compound index is declared without a
`unique` option. -/
theorem attendanceSchema_no_unique_index :
    ¬ ∃ ix ∈ attendanceSchemaIndexes, ix.unique = true := by
  decide

/-- C1 (amended): the schema declares the `(className, dateOnlyUTC)`
compound index as non-unique, and the at-most-one-session-per-key
invariant is maintained by the application-level
`findOneAndUpdate(..., {upsert: true})` call: under sequential execution
every `saveAttendance` call preserves key uniqueness of the store. -/
theorem attendance_unique_per_key_app_level :
    ((⟨[("className", 1), ("dateOnlyUTC", -1)], false⟩ : IndexSpec) ∈ attendanceSchemaIndexes)
    ∧ ∀ classes students store now user req, AtMostOnePerKey store →
        AtMostOnePerKey (saveAttendance classes students store now user req).1 := by
  refine ⟨by decide, ?_⟩
  intro classes students store now user req h
  by_cases hok : (saveAttendance classes students store now user req).2.isOk
  · obtain ⟨ocn, od, orec⟩ := req
    cases ocn with
    | none => simpa [saveAttendance] using h
    | some cn =>
      cases orec with
      | none => simpa [saveAttendance] using h
      | some M =>
        obtain ⟨⟨cls, hacc⟩, hshape, hmem⟩ :=
          saveAttendance_ok_conditions classes students store now user cn od M hok
        rw [saveAttendance_of_valid classes students store now user cn od M cls
          hacc hshape hmem]
        exact atMostOnePerKey_upsertByKey _ h
  · rw [saveAttendance_err_store classes students store now user req
      (Bool.not_eq_true _ ▸ hok)]
    exact h

/-- C1 witness: saving the concrete marks into an empty store yields a
key-unique store. -/
theorem attendance_unique_per_key_app_level_example :
    AtMostOnePerKey (saveAttendance [cCls] [cStu1, cStu2] [] 123456 none
      ⟨some "8A", some day20251110, some [cMark1, cMark2]⟩).1 :=
  attendance_unique_per_key_app_level.2 [cCls] [cStu1, cStu2] [] 123456 none
    ⟨some "8A", some day20251110, some [cMark1, cMark2]⟩ (List.Pairwise.nil)

/-! ## C4 — save validation -/

/-- C4 counterexample: a save whose `marks` is the empty array is
accepted — it passes every validation loop vacuously, returns 200 and
writes an empty-records session — contradicting the claim that an empty
`marks` array fails with a 400 before any write. -/
theorem save_accepts_empty_marks :
    saveAttendance [cCls] [] [] 123456 none ⟨some "8A", some day20251110, some []⟩ =
      ([savedDoc "8A" day20251110 []], .ok (savedDoc "8A" day20251110 [])) := by
  decide

/-- C4 (amended): `saveAttendance` fails with a 400 before any write when
`className` or `records` is missing (or `records` is not an array), when a
record lacks a truthy `studentId` or `status`, when a `studentId` is not a
valid ObjectId, or when a referenced student does not exist or is not a
member of the class's roster; an empty `marks` array is accepted, and a
status string is only checked to be truthy — not against the
`Present`/`Absent` enum; no failure path writes to the store. -/
theorem save_validation_failfast :
    (∀ classes students store now user req,
        (saveAttendance classes students store now user req).2.isOk = false →
        (saveAttendance classes students store now user req).1 = store)
    ∧ (∀ classes students store now user (req : SaveReq),
        req.className = none ∨ req.records = none →
        saveAttendance classes students store now user req =
          (store, .err 400 "Missing required fields: className and records (array)"))
    ∧ (∀ classes students store now user cn d M cls msg,
        ensureAccessToClassByName classes cn user = .ok cls →
        checkRecordsShape M = some msg →
        saveAttendance classes students store now user ⟨some cn, d, some M⟩ =
          (store, .err 400 msg))
    ∧ (∀ classes students store now user cn d M cls msg,
        ensureAccessToClassByName classes cn user = .ok cls →
        checkRecordsShape M = none →
        checkRecordsMembership students classes cn M = some msg →
        saveAttendance classes students store now user ⟨some cn, d, some M⟩ =
          (store, .err 400 msg)) := by
  refine ⟨saveAttendance_err_store, ?_, ?_, ?_⟩
  · intro classes students store now user req hreq
    obtain ⟨ocn, od, orec⟩ := req
    rcases hreq with h | h
    · cases h; simp [saveAttendance]
    · cases h
      cases ocn with
      | none => simp [saveAttendance]
      | some cn => simp [saveAttendance]
  · intro classes students store now user cn d M cls msg hacc hshape
    simp [saveAttendance, hacc, hshape]
  · intro classes students store now user cn d M cls msg hacc hshape hmem
    simp [saveAttendance, hacc, hshape, hmem]

/-- C4 witness: a mark whose student id resolves to no student document is
rejected with a 400 and the store is left unchanged. -/
theorem save_validation_failfast_example :
    saveAttendance [cCls] [] [] 5 none ⟨some "8A", none, some [cMark1]⟩ =
      ([], .err 400 "Student not found: aaaaaaaaaaaaaaaaaaaaaaaa") :=
  save_validation_failfast.2.2.2 [cCls] [] [] 5 none "8A" none [cMark1] cCls
    "Student not found: aaaaaaaaaaaaaaaaaaaaaaaa" rfl (by decide) (by decide)

/-! ## C7 — the `date` field of a stored session -/

/-- C7 counterexample: a save issued at the instant 1000 (with no explicit
`date`) stores `date = 0` — the normalized UTC midnight of the day — not
the save instant 1000, contradicting the claim that `originalTimestamp`
is refreshed to the time of the save call. -/
theorem save_date_field_not_save_instant :
    saveAttendance [cCls] [cStu1] [] 1000 none ⟨some "8A", none, some [cMark1]⟩ =
      ([savedDoc "8A" 0 [cMark1]], .ok (savedDoc "8A" 0 [cMark1]))
    ∧ (0 : Int) ≠ 1000 := by
  decide

/-- C7 (amended): on every successful upsert the stored session's `date`
field is set to the normalized day itself (`$set: { date: dayStartUTC }`),
i.e. it always equals `dateOnlyUTC` — not the instant of the save call —
while the session's identity is the `(className, normalized day)` key of
the keyed upsert; `date` plays no part in the upsert key. -/
theorem save_sets_date_to_normalized_day (classes : List ClassDoc)
    (students : List StudentDoc) (store store' : List AttendanceDoc) (now : Int)
    (user : Option AuthUser) (cn : String) (d : Option Int) (M : List Mark)
    (a : AttendanceDoc)
    (h : saveAttendance classes students store now user ⟨some cn, d, some M⟩ =
      (store', .ok a)) :
    a.date = a.dateOnlyUTC ∧ a.dateOnlyUTC = startOfUTC now d ∧ a.className = cn
    ∧ a.records = M ∧ store' = upsertByKey store a := by
  have hok : (saveAttendance classes students store now user ⟨some cn, d, some M⟩).2.isOk
      = true := by rw [h]; rfl
  obtain ⟨⟨cls, hacc⟩, hshape, hmem⟩ :=
    saveAttendance_ok_conditions classes students store now user cn d M hok
  rw [saveAttendance_of_valid classes students store now user cn d M cls hacc hshape hmem]
    at h
  obtain ⟨h1, h2⟩ := Prod.mk.injEq .. ▸ h
  cases SaveOutcome.ok.injEq .. ▸ h2
  exact ⟨rfl, rfl, rfl, rfl, h1.symm⟩

/-- C7 witness: the concrete scenario save stores `date = dateOnlyUTC =`
the normalized 2025-11-10 midnight. -/
theorem save_sets_date_to_normalized_day_example :
    (savedDoc "8A" day20251110 [cMark1, cMark2]).date =
        (savedDoc "8A" day20251110 [cMark1, cMark2]).dateOnlyUTC
    ∧ (savedDoc "8A" day20251110 [cMark1, cMark2]).dateOnlyUTC =
        startOfUTC 123456 (some day20251110)
    ∧ (savedDoc "8A" day20251110 [cMark1, cMark2]).className = "8A"
    ∧ (savedDoc "8A" day20251110 [cMark1, cMark2]).records = [cMark1, cMark2]
    ∧ [savedDoc "8A" day20251110 [cMark1, cMark2]] =
        upsertByKey [] (savedDoc "8A" day20251110 [cMark1, cMark2]) :=
  save_sets_date_to_normalized_day [cCls] [cStu1, cStu2] [] _ 123456 none "8A"
    (some day20251110) [cMark1, cMark2] _ (by decide)

/-! ## C2 — replacement semantics and idempotence of `saveAttendance` -/

/-- For a nonzero explicit date the normalized day does not depend on the
clock. -/
theorem startOfUTC_clock_irrelevant (now now' d : Int) (hd : d ≠ 0) :
    startOfUTC now (some d) = startOfUTC now' (some d) := by
  rw [startOfUTC_some now d hd, startOfUTC_some now' d hd]

/-- C2: starting from a key-unique store, saving marks `M1` and then `M2`
for the same class and the same (nonzero) explicit day leaves exactly one
stored session for that `(class, day)` key, whose marks are exactly `M2`
(wholesale replacement); re-submitting the identical `M2` payload once
more (under any clock) returns 200 and leaves the store byte-identical
(idempotence). -/
theorem save_twice_replaces_idempotent (classes : List ClassDoc)
    (students : List StudentDoc) (store s1 s2 : List AttendanceDoc)
    (now1 now2 now3 : Int) (user : Option AuthUser) (cn : String) (d : Int)
    (M1 M2 : List Mark) (o1 o2 : SaveOutcome)
    (hA : AtMostOnePerKey store) (hd : d ≠ 0)
    (hs1 : saveAttendance classes students store now1 user ⟨some cn, some d, some M1⟩ =
      (s1, o1))
    (ho1 : o1.isOk = true)
    (hs2 : saveAttendance classes students s1 now2 user ⟨some cn, some d, some M2⟩ =
      (s2, o2))
    (ho2 : o2.isOk = true) :
    s2.filter (keyMatches cn (startOfUTC now2 (some d))) =
      [savedDoc cn (startOfUTC now2 (some d)) M2]
    ∧ saveAttendance classes students s2 now3 user ⟨some cn, some d, some M2⟩ =
      (s2, .ok (savedDoc cn (startOfUTC now2 (some d)) M2)) := by
  have hok1 : (saveAttendance classes students store now1 user
      ⟨some cn, some d, some M1⟩).2.isOk = true := by rw [hs1]; exact ho1
  have hok2 : (saveAttendance classes students s1 now2 user
      ⟨some cn, some d, some M2⟩).2.isOk = true := by rw [hs2]; exact ho2
  obtain ⟨⟨cls1, hacc1⟩, hshape1, hmem1⟩ :=
    saveAttendance_ok_conditions classes students store now1 user cn (some d) M1 hok1
  obtain ⟨⟨cls2, hacc2⟩, hshape2, hmem2⟩ :=
    saveAttendance_ok_conditions classes students s1 now2 user cn (some d) M2 hok2
  rw [saveAttendance_of_valid classes students store now1 user cn (some d) M1 cls1
    hacc1 hshape1 hmem1] at hs1
  rw [saveAttendance_of_valid classes students s1 now2 user cn (some d) M2 cls2
    hacc2 hshape2 hmem2] at hs2
  have hs1' : s1 = upsertByKey store (savedDoc cn (startOfUTC now1 (some d)) M1) :=
    ((Prod.mk.injEq .. ▸ hs1).1).symm
  have hs2' : s2 = upsertByKey s1 (savedDoc cn (startOfUTC now2 (some d)) M2) :=
    ((Prod.mk.injEq .. ▸ hs2).1).symm
  have hA1 : AtMostOnePerKey s1 := hs1' ▸ atMostOnePerKey_upsertByKey _ hA
  have hfilter : s2.filter (keyMatches cn (startOfUTC now2 (some d))) =
      [savedDoc cn (startOfUTC now2 (some d)) M2] := by
    rw [hs2']
    exact @filter_upsertByKey s1 (savedDoc cn (startOfUTC now2 (some d)) M2) hA1
  refine ⟨hfilter, ?_⟩
  have hday : startOfUTC now3 (some d) = startOfUTC now2 (some d) :=
    startOfUTC_clock_irrelevant now3 now2 d hd
  rw [saveAttendance_of_valid classes students s2 now3 user cn (some d) M2 cls2
    hacc2 hshape2 hmem2, hday, upsertByKey_self hfilter]

/-- C2 witness: the spec's concrete correction scenario — first save marks
both students, the second save (one "Absent" mark for the first student)
fully replaces them, and a third identical save is a no-op. -/
theorem save_twice_replaces_idempotent_example :
    ((saveAttendance [cCls] [cStu1, cStu2]
        (saveAttendance [cCls] [cStu1, cStu2] [] 10 none
          ⟨some "8A", some day20251110, some [cMark1, cMark2]⟩).1
        20 none ⟨some "8A", some day20251110,
          some [⟨"aaaaaaaaaaaaaaaaaaaaaaaa", "Asha", "E1", "Absent"⟩]⟩).1.filter
      (keyMatches "8A" (startOfUTC 20 (some day20251110))) =
      [savedDoc "8A" (startOfUTC 20 (some day20251110))
        [⟨"aaaaaaaaaaaaaaaaaaaaaaaa", "Asha", "E1", "Absent"⟩]])
    ∧ saveAttendance [cCls] [cStu1, cStu2]
        (saveAttendance [cCls] [cStu1, cStu2]
          (saveAttendance [cCls] [cStu1, cStu2] [] 10 none
            ⟨some "8A", some day20251110, some [cMark1, cMark2]⟩).1
          20 none ⟨some "8A", some day20251110,
            some [⟨"aaaaaaaaaaaaaaaaaaaaaaaa", "Asha", "E1", "Absent"⟩]⟩).1
        30 none ⟨some "8A", some day20251110,
          some [⟨"aaaaaaaaaaaaaaaaaaaaaaaa", "Asha", "E1", "Absent"⟩]⟩ =
      ((saveAttendance [cCls] [cStu1, cStu2]
          (saveAttendance [cCls] [cStu1, cStu2] [] 10 none
            ⟨some "8A", some day20251110, some [cMark1, cMark2]⟩).1
          20 none ⟨some "8A", some day20251110,
            some [⟨"aaaaaaaaaaaaaaaaaaaaaaaa", "Asha", "E1", "Absent"⟩]⟩).1,
        .ok (savedDoc "8A" (startOfUTC 20 (some day20251110))
          [⟨"aaaaaaaaaaaaaaaaaaaaaaaa", "Asha", "E1", "Absent"⟩])) :=
  save_twice_replaces_idempotent [cCls] [cStu1, cStu2] [] _ _ 10 20 30 none "8A"
    day20251110 [cMark1, cMark2] [⟨"aaaaaaaaaaaaaaaaaaaaaaaa", "Asha", "E1", "Absent"⟩]
    _ _ List.Pairwise.nil (by decide) rfl (by decide) rfl (by decide)

/-! ## C6 — history reader: empty shape and derived counts -/

/-- The record-row mapping of `getAttendanceHistory` preserves the status
counts of the underlying marks. -/
theorem recs_status_count (l : List Mark) (n : Nat) (st : String) :
    (((l.enumFrom n).map fun p =>
        ({ id := p.1 + 1, studentId := p.2.studentId, name := p.2.studentName,
           enrollNo := p.2.enrollNo, status := p.2.status } : RecOut)).filter
      (fun r => r.status = st)).length
    = (l.filter fun r => r.status = st).length := by
  induction l generalizing n with
  | nil => rfl
  | cons a l ih =>
    simp only [List.enumFrom_cons, List.map_cons, List.filter_cons]
    by_cases h : a.status = st
    · simp [h, ih]
    · simp [h, ih]

/-- C6: when no session exists for the requested class and day the reader
returns the explicit empty shape `total=0, present=0, absent=0,
records=[]` as a 200 (not an error); when a session exists, `total`,
`present` and `absent` are derived by scanning the stored `records` array
(`total` = its length, `present`/`absent` = the number of marks with that
exact status) — no separately stored count is consulted. -/
theorem history_empty_shape_and_derived_counts :
    (∀ classes store now user cn date cls,
        ensureAccessToClassByName classes cn user = .ok cls →
        sessionLookup store now cn date = none →
        getAttendanceHistory classes store now user (some cn) date =
          .ok ⟨cn, date, 0, 0, 0, []⟩)
    ∧ (∀ classes store now user cn date cls sess,
        ensureAccessToClassByName classes cn user = .ok cls →
        sessionLookup store now cn date = some sess →
        getAttendanceHistory classes store now user (some cn) date =
          .ok ⟨sess.className, some sess.date, sess.records.length,
            (sess.records.filter fun r => r.status = "Present").length,
            (sess.records.filter fun r => r.status = "Absent").length,
            sess.records.enum.map fun p =>
              ⟨p.1 + 1, p.2.studentId, p.2.studentName, p.2.enrollNo, p.2.status⟩⟩) := by
  constructor
  · intro classes store now user cn date cls hacc hlook
    simp [getAttendanceHistory, hacc, hlook]
  · intro classes store now user cn date cls sess hacc hlook
    simp only [getAttendanceHistory, hacc, hlook]
    have hP := recs_status_count sess.records 0 "Present"
    have hA := recs_status_count sess.records 0 "Absent"
    simp only [List.enum] at hP hA ⊢
    rw [hP, hA]
    simp [List.length_map, List.enumFrom_length]

/-- C6 witness: with the concrete session stored, the reader reports
`total=2, present=1, absent=1` by scanning the marks; with an empty
store it reports the explicit empty shape. -/
theorem history_empty_shape_and_derived_counts_example :
    getAttendanceHistory [cCls] [] 999 none (some "8A") (some day20251110) =
      .ok ⟨"8A", some day20251110, 0, 0, 0, []⟩
    ∧ getAttendanceHistory [cCls] [savedDoc "8A" day20251110 [cMark1, cMark2]] 999 none
        (some "8A") (some day20251110) =
      .ok ⟨"8A", some day20251110, 2,
        ([cMark1, cMark2].filter fun r => r.status = "Present").length,
        ([cMark1, cMark2].filter fun r => r.status = "Absent").length,
        [cMark1, cMark2].enum.map fun p =>
          ⟨p.1 + 1, p.2.studentId, p.2.studentName, p.2.enrollNo, p.2.status⟩⟩ :=
  ⟨history_empty_shape_and_derived_counts.1 [cCls] [] 999 none "8A"
      (some day20251110) cCls rfl (by decide),
   history_empty_shape_and_derived_counts.2 [cCls]
      [savedDoc "8A" day20251110 [cMark1, cMark2]] 999 none "8A"
      (some day20251110) cCls (savedDoc "8A" day20251110 [cMark1, cMark2]) rfl
      (by decide)⟩

/-! ## Monthly aggregator: inversion of a 200 response -/

/-- The response of a monthly outcome (a dummy on an error response). -/
def MonthlyOutcome.respD : MonthlyOutcome → MonthlyResp
  | .ok r => r
  | .err _ _ => ⟨"", 0, 0, [], []⟩

/-- A granted access implies the class lookup succeeded with the same
document. -/
theorem ensureAccess_ok_find (classes : List ClassDoc) (cn : String)
    (user : Option AuthUser) (cls : ClassDoc)
    (h : ensureAccessToClassByName classes cn user = .ok cls) :
    findClassByName classes cn = some cls := by
  cases hf : findClassByName classes cn with
  | none => simp [ensureAccessToClassByName, hf] at h
  | some c =>
    cases user with
    | none =>
      simp only [ensureAccessToClassByName, hf] at h
      injection h with h2
      exact congrArg some h2
    | some u =>
      simp only [ensureAccessToClassByName, hf] at h
      by_cases hc : u.role = "teacher" ∧ c.teacher ≠ u.id
      · rw [if_pos hc] at h; exact absurd h (by simp)
      · rw [if_neg hc] at h
        injection h with h2
        exact congrArg some h2

/-- Inversion: a 200 monthly response arises only from a granted access,
a valid month and a resolved class, and its payload is the roster rows
over the month's sessions. -/
theorem getMonthlyAttendance_ok_inv (classes : List ClassDoc)
    (students : List StudentDoc) (store : List AttendanceDoc)
    (user : Option AuthUser) (cn : String) (y m : Int) (resp : MonthlyResp)
    (hok : getMonthlyAttendance classes students store user (some cn) (some y) (some m) =
      .ok resp) :
    ∃ cls, ensureAccessToClassByName classes cn user = .ok cls ∧
      findClassByName classes cn = some cls ∧ 1 ≤ m ∧ m ≤ 12 ∧
      resp = { className := cn, year := y, month := m, days := monthDays y m,
               students := (sortedRoster students cls).map
                 (rowFor (statusTriples (monthSessions store cn y m)) (monthDays y m)) } := by
  simp only [getMonthlyAttendance] at hok
  cases hacc : ensureAccessToClassByName classes cn user with
  | error e => rw [hacc] at hok; exact absurd hok (by simp)
  | ok cls0 =>
    rw [hacc] at hok
    have hf := ensureAccess_ok_find classes cn user cls0 hacc
    by_cases hm : m < 1 ∨ 12 < m
    · rw [if_pos hm] at hok; exact absurd hok (by simp)
    · rw [if_neg hm, hf] at hok
      simp only [MonthlyOutcome.ok.injEq] at hok
      exact ⟨cls0, rfl, hf, by omega, by omega, hok.symm⟩

/-! ## C3 — monthly matrix: roster rows and default cells -/

/-- The concrete store holding one session on 2025-11-10 for class "8A":
the first student Present, the second Absent, the third unmarked. -/
def cStore1 : List AttendanceDoc := [savedDoc "8A" day20251110 [cMark1, cMark2]]

/-- The concrete monthly matrix for class "8A", November 2025, roster of
three students, over `cStore1`. -/
def cMonthly : MonthlyOutcome :=
  getMonthlyAttendance [cCls] [cStu1, cStu2, cStu3] cStore1 none
    (some "8A") (some 2025) (some 11)

/-- A dummy matrix row (used as a `getD` default). -/
def cRow0 : MonthlyRow := ⟨"", "", "", [], 0, 0⟩

/-- C3 counterexample: in the concrete scenario the roster student with no
mark on day 10 has `daily[10] = "NA"` — the code's sentinel — not
`"NotRecorded"` as the claim states. -/
theorem monthly_unrecorded_cell_not_NotRecorded :
    (cMonthly.rows.map fun row => row.daily.getD 9 "") = ["Present", "Absent", "NA"]
    ∧ "NA" ≠ "NotRecorded" := by
  decide

/-- The day list of the matrix reads back `i + 1` at index `i`. -/
theorem monthDays_getElem? (y m : Int) (i : Nat)
    (hi : i < (daysInMonthJS y m).toNat) :
    (monthDays y m)[i]? = some ((i : Int) + 1) := by
  rw [monthDays, List.getElem?_map, List.getElem?_range hi]
  rfl

/-- C3 (amended): the matrix always has exactly one row per student
currently enrolled in the class — regardless of the month's sessions —
and any day of the month with no recorded mark for that row's student is
reported with the cell value `"NA"` (the code's rendering of
NotRecorded). -/
theorem monthly_rows_roster_default_NA (classes : List ClassDoc)
    (students : List StudentDoc) (store : List AttendanceDoc)
    (user : Option AuthUser) (cn : String) (y m : Int) (resp : MonthlyResp)
    (cls : ClassDoc)
    (hok : getMonthlyAttendance classes students store user (some cn) (some y) (some m) =
      .ok resp)
    (hcls : findClassByName classes cn = some cls) :
    resp.students.length = (students.filter fun s => s.classId = cls.cid).length
    ∧ ∀ row ∈ resp.students, ∀ i : Nat, i < resp.days.length →
        (∀ t ∈ statusTriples (monthSessions store cn y m),
          ¬ (t.1 = row.studentId ∧ t.2.1 = (i : Int) + 1)) →
        row.daily.getD i "" = "NA" := by
  obtain ⟨cls0, hacc, hf0, hm1, hm2, hresp⟩ :=
    getMonthlyAttendance_ok_inv classes students store user cn y m resp hok
  rw [hf0] at hcls
  injection hcls with hcls
  subst hcls
  subst hresp
  constructor
  · simp [sortedRoster, List.length_insertionSort]
  · intro row hrow i hi hno
    simp only [List.mem_map] at hrow
    obtain ⟨stu, hstu, rfl⟩ := hrow
    have hdays : i < (daysInMonthJS y m).toNat := by
      simpa only [monthDays, List.length_map, List.length_range] using hi
    have h1 : (rowFor (statusTriples (monthSessions store cn y m)) (monthDays y m)
        stu).daily.getD i "" =
        cellOf (lastStatus (statusTriples (monthSessions store cn y m)) stu.sid
          ((i : Int) + 1)) := by
      simp only [rowFor, List.getD_eq_getElem?_getD, List.getElem?_map,
        monthDays_getElem? y m i hdays]
      rfl
    rw [h1]
    have hfil : ((statusTriples (monthSessions store cn y m)).filter
        fun t => t.1 = stu.sid ∧ t.2.1 = (i : Int) + 1) = [] := by
      refine List.filter_eq_nil_iff.mpr fun t ht hdec => ?_
      exact hno t ht (of_decide_eq_true hdec)
    unfold lastStatus
    rw [hfil]
    rfl

/-- C3 witness: the concrete matrix has three rows — one per roster
student — and the unmarked third student's day-10 cell is `"NA"`. -/
theorem monthly_rows_roster_default_NA_example :
    cMonthly.respD.students.length =
      ([cStu1, cStu2, cStu3].filter fun s => s.classId = cCls.cid).length
    ∧ (cMonthly.respD.students.getD 2 cRow0).daily.getD 9 "" = "NA" := by
  have h := monthly_rows_roster_default_NA [cCls] [cStu1, cStu2, cStu3] cStore1 none
    "8A" 2025 11 cMonthly.respD cCls (by decide) (by decide)
  exact ⟨h.1, h.2 (cMonthly.respD.students.getD 2 cRow0) (by decide) 9 (by decide)
    (by decide)⟩

/-! ## C8 — per-row `present + absent` bound -/

/-- Counting two distinct values in a list of three possible values:
the two counts sum to at most the length, with equality exactly when the
third value never occurs. -/
theorem present_absent_count (l : List String)
    (hl : ∀ c ∈ l, c = "Present" ∨ c = "Absent" ∨ c = "NA") :
    (l.filter fun s => s = "Present").length + (l.filter fun s => s = "Absent").length
      ≤ l.length
    ∧ ((l.filter fun s => s = "Present").length +
        (l.filter fun s => s = "Absent").length = l.length
        ↔ ∀ c ∈ l, c ≠ "NA") := by
  induction l with
  | nil => simp
  | cons a l ih =>
    obtain ⟨ih1, ih2⟩ := ih fun c hc => hl c (List.mem_cons_of_mem a hc)
    rcases hl a (List.mem_cons_self a l) with h | h | h <;> subst h <;>
      simp only [List.filter_cons, List.length_cons, List.forall_mem_cons] <;>
      norm_num
    · rw [if_neg (show ¬ ("Present" : String) = "Absent" by decide)]
      refine ⟨by omega, ?_, ?_⟩
      · intro he; exact ⟨by decide, ih2.mp (by omega)⟩
      · rintro ⟨_, hrest⟩; have := ih2.mpr hrest; omega
    · rw [if_neg (show ¬ ("Absent" : String) = "Present" by decide)]
      refine ⟨by omega, ?_, ?_⟩
      · intro he; exact ⟨by decide, ih2.mp (by omega)⟩
      · rintro ⟨_, hrest⟩; have := ih2.mpr hrest; omega
    · rw [if_neg (show ¬ ("NA" : String) = "Present" by decide),
        if_neg (show ¬ ("NA" : String) = "Absent" by decide)]
      refine ⟨by omega, fun he => ?_⟩
      omega

/-- A triple produced by the fold comes from some fetched session's
record. -/
theorem statusTriples_mem {sessions : List AttendanceDoc} {t : String × Int × String}
    (ht : t ∈ statusTriples sessions) :
    ∃ s ∈ sessions, ∃ r ∈ s.records, t.2.2 = r.status := by
  simp only [statusTriples, List.mem_flatMap, List.mem_map] at ht
  obtain ⟨s, hs, r, hr, rfl⟩ := ht
  exact ⟨s, hs, r, hr, rfl⟩

/-- A status delivered by the last-write-wins lookup occurs among the
folded triples. -/
theorem lastStatus_mem {ts : List (String × Int × String)} {sid : String} {d : Int}
    {st : String} (h : lastStatus ts sid d = some st) : ∃ t ∈ ts, t.2.2 = st := by
  unfold lastStatus at h
  have h' : st ∈ ((ts.filter fun t => t.1 = sid ∧ t.2.1 = d).map fun t => t.2.2).getLast? := by
    rw [Option.mem_def]; exact h
  obtain ⟨hne, heq⟩ := List.mem_getLast?_eq_getLast h'
  have hmem : st ∈ (ts.filter fun t => t.1 = sid ∧ t.2.1 = d).map fun t => t.2.2 :=
    heq ▸ List.getLast_mem hne
  simp only [List.mem_map] at hmem
  obtain ⟨t, htf, rfl⟩ := hmem
  exact ⟨t, List.mem_of_mem_filter htf, rfl⟩

/-- Every cell of a matrix row is `"Present"`, `"Absent"` or `"NA"`,
provided every stored mark's status is `"Present"` or `"Absent"`. -/
theorem daily_cell_cases (store : List AttendanceDoc) (cn : String) (y m : Int)
    (ts days stu c)
    (henum : ∀ a ∈ store, ∀ r ∈ a.records, r.status = "Present" ∨ r.status = "Absent")
    (hts : ts = statusTriples (monthSessions store cn y m))
    (hc : c ∈ (rowFor ts days stu).daily) :
    c = "Present" ∨ c = "Absent" ∨ c = "NA" := by
  simp only [rowFor, List.mem_map] at hc
  obtain ⟨d, hd, rfl⟩ := hc
  cases hls : lastStatus ts stu.sid d with
  | none => right; right; rfl
  | some st =>
    by_cases hst : st = ""
    · right; right; simp [cellOf, hst]
    · have hcell : cellOf (some st) = st := by simp [cellOf, hst]
      rw [hcell]
      obtain ⟨t, htmem, rfl⟩ := lastStatus_mem hls
      rw [hts] at htmem
      obtain ⟨s, hs, r, hr, hstat⟩ := statusTriples_mem htmem
      rw [hstat]
      exact (henum s (List.mem_of_mem_filter hs) r hr).elim Or.inl fun h2 =>
        Or.inr (Or.inl h2)

/-- C8: in every row of a monthly matrix over a store whose marks all
carry a `"Present"`/`"Absent"` status, `present + absent` is at most the
number of days in the requested month, with equality exactly when every
day of the month has a recorded (non-`"NA"`) cell. -/
theorem monthly_present_absent_bound (classes : List ClassDoc)
    (students : List StudentDoc) (store : List AttendanceDoc)
    (user : Option AuthUser) (cn : String) (y m : Int) (resp : MonthlyResp)
    (henum : ∀ a ∈ store, ∀ r ∈ a.records, r.status = "Present" ∨ r.status = "Absent")
    (hok : getMonthlyAttendance classes students store user (some cn) (some y) (some m) =
      .ok resp) :
    ∀ row ∈ resp.students,
      row.present + row.absent ≤ resp.days.length
      ∧ (row.present + row.absent = resp.days.length ↔ ∀ c ∈ row.daily, c ≠ "NA") := by
  obtain ⟨cls0, hacc, hf0, hm1, hm2, hresp⟩ :=
    getMonthlyAttendance_ok_inv classes students store user cn y m resp hok
  subst hresp
  intro row hrow
  simp only [List.mem_map] at hrow
  obtain ⟨stu, hstu, rfl⟩ := hrow
  have hcases : ∀ c ∈ (rowFor (statusTriples (monthSessions store cn y m))
      (monthDays y m) stu).daily, c = "Present" ∨ c = "Absent" ∨ c = "NA" :=
    fun c hc => daily_cell_cases store cn y m _ _ stu c henum rfl hc
  have hcount := present_absent_count _ hcases
  have hlen : (rowFor (statusTriples (monthSessions store cn y m))
      (monthDays y m) stu).daily.length = (monthDays y m).length := by
    simp [rowFor]
  exact ⟨by rw [← hlen]; exact hcount.1, by rw [← hlen]; exact hcount.2⟩

/-- C8 witness: the first row of the concrete November 2025 matrix (one
recorded day out of 30) satisfies the bound, and its count equality fails
exactly as some cell is `"NA"`. -/
theorem monthly_present_absent_bound_example :
    (cMonthly.respD.students.getD 0 cRow0).present +
        (cMonthly.respD.students.getD 0 cRow0).absent ≤ cMonthly.respD.days.length
    ∧ ((cMonthly.respD.students.getD 0 cRow0).present +
        (cMonthly.respD.students.getD 0 cRow0).absent = cMonthly.respD.days.length
        ↔ ∀ c ∈ (cMonthly.respD.students.getD 0 cRow0).daily, c ≠ "NA") :=
  monthly_present_absent_bound [cCls] [cStu1, cStu2, cStu3] cStore1 none "8A" 2025 11
    cMonthly.respD (by decide) (by decide)
    (cMonthly.respD.students.getD 0 cRow0) (by decide)

/-! ## C9 — row order and output determinism

MongoDB's `sort({name: 1})` guarantees only that the returned documents
are ordered by `name`; when two documents compare equal on the sort key,
their relative order is unspecified and may differ between calls (no
stable-sort or tie-break guarantee). `mongoSortByName` states exactly
that contract; `sortedRoster` (the deterministic model used by the
embedded handler) is one conforming choice among possibly several. -/

/-- The contract of `Student.find({classId: ...}).sort({name: 1})`: the
result is some permutation of the matching documents that is ordered by
`name`. Nothing constrains the relative order of equal names. -/
def mongoSortByName (pool result : List StudentDoc) : Prop :=
  result.Perm pool ∧ result.Pairwise fun a b => a.name.toList ≤ b.name.toList

/-- The 200 payload of `getMonthlyAttendance` as a function of the roster
list the database returned for `Student.find(...).sort({name: 1})`. -/
def getMonthlyAttendanceWith (roster : List StudentDoc) (store : List AttendanceDoc)
    (cn : String) (y m : Int) : MonthlyResp :=
  { className := cn, year := y, month := m, days := monthDays y m,
    students := roster.map
      (rowFor (statusTriples (monthSessions store cn y m)) (monthDays y m)) }

/-- A second student also named "Asha", sharing the name of `cStu1` but
with a different id and enrollment number. -/
def cStu1b : StudentDoc := ⟨"dddddddddddddddddddddddd", "Asha", "E4", "c1"⟩

/-- C9 counterexample: with two roster students sharing the name "Asha",
both orders of the pair satisfy the database's sort contract for the same
query on the same data, yet the two resulting monthly responses are not
byte-identical (their rows list the students' ids in different order).
Repeated calls with identical roster and session data may therefore
differ, refuting the claimed byte-identical determinism. -/
theorem monthly_output_differs_on_name_ties :
    mongoSortByName [cStu1, cStu1b] [cStu1, cStu1b]
    ∧ mongoSortByName [cStu1, cStu1b] [cStu1b, cStu1]
    ∧ getMonthlyAttendanceWith [cStu1, cStu1b] [] "8A" 2025 11 ≠
        getMonthlyAttendanceWith [cStu1b, cStu1] [] "8A" 2025 11 := by
  refine ⟨⟨List.Perm.refl _, by decide⟩, ⟨List.Perm.swap cStu1 cStu1b [], by decide⟩,
    by decide⟩

/-- Two strings with the same character list are equal. -/
theorem string_eq_of_toList_eq {a b : String} (h : a.toList = b.toList) : a = b :=
  String.ext h

/-- A name-sorted list of students with pairwise-distinct names is
determined by its multiset of elements: two sorted permutations of each
other are equal. -/
theorem eq_of_perm_sorted_names (r1 : List StudentDoc) :
    ∀ r2 : List StudentDoc, r1.Perm r2 →
    r1.Pairwise (fun a b => a.name.toList ≤ b.name.toList) →
    r2.Pairwise (fun a b => a.name.toList ≤ b.name.toList) →
    (r1.map fun s => s.name).Nodup → r1 = r2 := by
  induction r1 with
  | nil =>
    intro r2 hp _ _ _
    exact (hp.symm.eq_nil).symm
  | cons a t1 ih =>
    intro r2 hp hs1 hs2 hn
    cases r2 with
    | nil => exact absurd hp.eq_nil (by simp)
    | cons b t2 =>
      obtain ⟨hs1a, hs1t⟩ := List.pairwise_cons.mp hs1
      obtain ⟨hs2a, hs2t⟩ := List.pairwise_cons.mp hs2
      rw [List.map_cons] at hn
      obtain ⟨hna, hnt⟩ := List.nodup_cons.mp hn
      have hab : a = b := by
        rcases List.mem_cons.mp (hp.mem_iff.mp (List.mem_cons_self a t1)) with h | h
        · exact h
        · rcases List.mem_cons.mp (hp.symm.mem_iff.mp (List.mem_cons_self b t2)) with
            h' | h'
          · exact h'.symm
          · have hname : a.name = b.name :=
              string_eq_of_toList_eq (le_antisymm (hs1a b h') (hs2a a h))
            have : a.name ∈ t1.map fun s => s.name :=
              hname ▸ List.mem_map_of_mem (fun s => s.name) h'
            exact absurd this hna
      subst hab
      rw [ih t2 hp.cons_inv hs1t hs2t hnt]

/-- C9 (amended): the monthly matrix lists its rows sorted by student
name (lexicographic character order, i.e. `String` order), the handler's
payload is the row construction applied to one contract-conforming roster
order, and the deterministic model `sortedRoster` satisfies the sort
contract; but byte-identical output across calls is guaranteed exactly
under distinct names: any two contract-conforming roster orders for a
pool with pairwise-distinct names produce the identical response, while
equal names leave the order — hence the response bytes — unspecified. -/
theorem monthly_rows_order_and_determinism :
    (∀ classes students store user cn y m (resp : MonthlyResp),
        getMonthlyAttendance classes students store user (some cn) (some y) (some m) =
          .ok resp →
        resp.students.Pairwise fun r1 r2 => r1.name.toList ≤ r2.name.toList)
    ∧ (∀ classes students store user cn y m (resp : MonthlyResp),
        getMonthlyAttendance classes students store user (some cn) (some y) (some m) =
          .ok resp →
        ∃ cls, findClassByName classes cn = some cls ∧
          resp = getMonthlyAttendanceWith (sortedRoster students cls) store cn y m)
    ∧ (∀ students cls,
        mongoSortByName (students.filter fun s => s.classId = cls.cid)
          (sortedRoster students cls))
    ∧ (∀ pool r1 r2 store cn y m,
        mongoSortByName pool r1 → mongoSortByName pool r2 →
        (pool.map fun s => s.name).Nodup →
        getMonthlyAttendanceWith r1 store cn y m =
          getMonthlyAttendanceWith r2 store cn y m) := by
  haveI hT : IsTotal StudentDoc (fun a b => a.name.toList ≤ b.name.toList) :=
    ⟨fun a b => le_total _ _⟩
  haveI hR : IsTrans StudentDoc (fun a b => a.name.toList ≤ b.name.toList) :=
    ⟨fun _ _ _ h1 h2 => le_trans h1 h2⟩
  refine ⟨?_, ?_, ?_, ?_⟩
  · intro classes students store user cn y m resp hok
    obtain ⟨cls0, hacc, hf0, hm1, hm2, hresp⟩ :=
      getMonthlyAttendance_ok_inv classes students store user cn y m resp hok
    subst hresp
    have hsorted := List.sorted_insertionSort
      (fun a b : StudentDoc => a.name.toList ≤ b.name.toList)
      (students.filter fun s => s.classId = cls0.cid)
    exact List.Pairwise.map _ (fun a b hab => hab) hsorted
  · intro classes students store user cn y m resp hok
    obtain ⟨cls0, hacc, hf0, hm1, hm2, hresp⟩ :=
      getMonthlyAttendance_ok_inv classes students store user cn y m resp hok
    exact ⟨cls0, hf0, hresp⟩
  · intro students cls
    exact ⟨List.perm_insertionSort _ _, List.sorted_insertionSort _ _⟩
  · intro pool r1 r2 store cn y m h1 h2 hn
    have hp : r1.Perm r2 := h1.1.trans h2.1.symm
    have hn1 : (r1.map fun s => s.name).Nodup :=
      ((h1.1.map fun s => s.name).nodup_iff).mpr hn
    rw [eq_of_perm_sorted_names r1 r2 hp h1.2 h2.2 hn1]

/-- C9 witness: for the distinct-name roster, the contract pins the order
— the handler's stable-sorted roster and the explicitly sorted list give
the identical response. -/
theorem monthly_rows_order_and_determinism_example :
    getMonthlyAttendanceWith (sortedRoster [cStu2, cStu1] cCls) cStore1 "8A" 2025 11 =
      getMonthlyAttendanceWith [cStu1, cStu2] cStore1 "8A" 2025 11 :=
  monthly_rows_order_and_determinism.2.2.2 [cStu1, cStu2]
    (sortedRoster [cStu2, cStu1] cCls) [cStu1, cStu2] cStore1 "8A" 2025 11
    ⟨by decide, by decide⟩ ⟨List.Perm.refl _, by decide⟩ (by decide)

end ClassCraft
